import Mathlib

/-!
Verification of the heatmap pipeline (src/osm.py, src/draw.py) against its
natural-language specification.  The Python source is shallowly embedded:
pure functions become Lean functions, the filesystem and HTTP responses are
passed explicitly, fallible code returns `Except`, Python floats are
modelled as exact rationals (`ℚ`), and the four bounding-box floats fed to
`struct.pack(">f", _)` are modelled by their 32-bit IEEE-754 bit patterns
(the exact information the identity string encodes).
-/

deriving instance DecidableEq for Except

namespace Heatmap

/-! ## Embedding of `src/osm.py` -/

/-- One hexadecimal digit.  `base64.b16encode` produces upper-case digits and
`osm_id` immediately lower-cases the whole string, so we emit lower-case
digits directly. -/
def hexDigit : Nat → Char
  | 0 => '0'
  | 1 => '1'
  | 2 => '2'
  | 3 => '3'
  | 4 => '4'
  | 5 => '5'
  | 6 => '6'
  | 7 => '7'
  | 8 => '8'
  | 9 => '9'
  | 10 => 'a'
  | 11 => 'b'
  | 12 => 'c'
  | 13 => 'd'
  | 14 => 'e'
  | _ => 'f'

/-- Inverse of `hexDigit`, used only in proofs. -/
def unhex : Char → Nat
  | '0' => 0
  | '1' => 1
  | '2' => 2
  | '3' => 3
  | '4' => 4
  | '5' => 5
  | '6' => 6
  | '7' => 7
  | '8' => 8
  | '9' => 9
  | 'a' => 10
  | 'b' => 11
  | 'c' => 12
  | 'd' => 13
  | 'e' => 14
  | 'f' => 15
  | _ => 16

/-- The two hex digits of one byte (high nibble first), as `b16encode`
renders it. -/
def byteHex (b : Nat) : List Char := [hexDigit (b / 16), hexDigit (b % 16)]

/-- The four bytes of `struct.pack(">f", f)`: the big-endian byte order of
the 32-bit bit pattern `w` of the single-precision float `f`. -/
def packBytes (w : Nat) : List Nat :=
  [w / 2 ^ 24 % 256, w / 2 ^ 16 % 256, w / 2 ^ 8 % 256, w % 256]

/-- `base64.b16encode(bytes).decode().lower()`: two lower-case hex digits per
byte, concatenated. -/
def b16encodeLower (bs : List Nat) : List Char := (bs.map byteHex).flatten

/-- `osm_id` (src/osm.py:15-19): concatenate the lower-cased base-16 encoding
of `struct.pack(">f", f)` for the four bounding-box values, in the order
min-lon, min-lat, max-lon, max-lat.  Each argument is the 32-bit IEEE-754
bit pattern of the corresponding single-precision float. -/
def osm_id (minLon minLat maxLon maxLat : Nat) : String :=
  ⟨b16encodeLower (packBytes minLon) ++ b16encodeLower (packBytes minLat) ++
    b16encodeLower (packBytes maxLon) ++ b16encodeLower (packBytes maxLat)⟩

/-- An HTTP response as observed by `download_osm`: a status code and a byte
payload (`r.content`). -/
structure HttpResponse where
  statusCode : Nat
  content : List Nat
deriving DecidableEq

/-- `download_osm` (src/osm.py:22-27): perform the GET and write `r.content`
to `file_name`.  The source inspects neither `r.status_code` nor
`r.ok`; whatever payload the response carries is written verbatim.  The
filesystem is modelled as a map from file name to byte content. -/
def download_osm (fs : String → Option (List Nat)) (fileName : String)
    (r : HttpResponse) : String → Option (List Nat) :=
  fun p => if p = fileName then some r.content else fs p

/-- A `<node .../>` element: id plus position (the code reads `lon` and
`lat` attributes). -/
structure OsmNode where
  id : Int
  lon : ℚ
  lat : ℚ
deriving DecidableEq

/-- One child element of a `<way>`: a node reference `<nd ref=.../>` (whose
`ref` attribute may be absent), a `<tag k=... v=.../>`, or any other child,
which the loop in `parse_osm` ignores. -/
inductive WayElem
  | nd (ref : Option Int)
  | tag (k v : String)
  | other
deriving DecidableEq

/-- A `<way>` element: its ordered children. -/
structure OsmWay where
  elems : List WayElem
deriving DecidableEq

/-- A parsed node/way document: the `node` elements and the `way` elements
of the root, in document order. -/
structure OsmDoc where
  nodes : List OsmNode
  ways : List OsmWay
deriving DecidableEq

/-- The hard failure raised when a way's `ref` is missing from the node
lookup (`nodes[int(ref)]` in src/osm.py:64 raises on an unknown key). -/
inductive OsmErr
  | danglingReference (ref : Int)
deriving DecidableEq

/-- The node lookup built by the first loop of `parse_osm`
(src/osm.py:37-39): a Python dict, so a later `node` element with the same
id overrides an earlier one.  Modelled as an association list where the
most recent insertion is found first. -/
def buildNodes (ns : List OsmNode) : List (Int × ℚ × ℚ) :=
  ns.foldl (fun m n => (n.id, n.lon, n.lat) :: m) []

/-- Dict lookup in the node map. -/
def lookupNode (m : List (Int × ℚ × ℚ)) (i : Int) : Option (ℚ × ℚ) :=
  (m.find? (fun e => e.1 = i)).map (fun e => e.2)

/-- The inner loop of `parse_osm` over one way's children
(src/osm.py:55-68), carrying the `keep` flag and the accumulated `coords`
list: an `nd` with an absent `ref` is skipped, an `nd` whose `ref` is not in
the node lookup is a hard failure, a `tag` with key `"highway"` sets `keep`,
and other children are ignored. -/
def wayCoords (m : List (Int × ℚ × ℚ)) :
    List WayElem → Bool → List (ℚ × ℚ) → Except OsmErr (Bool × List (ℚ × ℚ))
  | [], keep, coords => .ok (keep, coords)
  | .nd none :: es, keep, coords => wayCoords m es keep coords
  | .nd (some r) :: es, keep, coords =>
    match lookupNode m r with
    | none => .error (.danglingReference r)
    | some c => wayCoords m es keep (coords ++ [c])
  | .tag k _ :: es, keep, coords => wayCoords m es (keep || (k == "highway")) coords
  | .other :: es, keep, coords => wayCoords m es keep coords

/-- The outer loop of `parse_osm` over the ways (src/osm.py:54-71): a way's
coordinate list is appended to `segments` exactly when its `keep` flag was
set. -/
def parseWays (m : List (Int × ℚ × ℚ)) :
    List OsmWay → List (List (ℚ × ℚ)) → Except OsmErr (List (List (ℚ × ℚ)))
  | [], segs => .ok segs
  | w :: ws, segs =>
    match wayCoords m w.elems false [] with
    | .error e => .error e
    | .ok (keep, coords) => parseWays m ws (if keep then segs ++ [coords] else segs)

/-- `parse_osm` (src/osm.py:29-76): build the node lookup, then reconstruct
every way, keeping exactly the ways tagged with key `"highway"`. -/
def parse_osm (doc : OsmDoc) : Except OsmErr (List (List (ℚ × ℚ))) :=
  parseWays (buildNodes doc.nodes) doc.ways []

/-- A way carries a road-classification tag: some child is a `tag` whose key
is `"highway"` (the value is never inspected). -/
def hasHighwayTag (w : OsmWay) : Bool :=
  w.elems.any fun e =>
    match e with
    | .tag k _ => k == "highway"
    | _ => false

/-- The ordered coordinates of a way's resolvable node references. -/
def resolveElems (m : List (Int × ℚ × ℚ)) (es : List WayElem) : List (ℚ × ℚ) :=
  es.filterMap fun e =>
    match e with
    | .nd (some r) => lookupNode m r
    | _ => none

/-! ## Embedding of `src/draw.py` -/

/-- One `<trkpt>` of a GPX file, as gpxpy exposes it. -/
structure GpxPoint where
  latitude : ℚ
  longitude : ℚ
  elevation : ℚ
deriving DecidableEq

/-- One `<trkseg>`: its ordered points. -/
structure GpxSegment where
  points : List GpxPoint
deriving DecidableEq

/-- One `<trk>`: its segments plus the `type` and `name` children the loader
reads. -/
structure GpxTrack where
  segments : List GpxSegment
  type : Int
  name : String
deriving DecidableEq

/-- One parsed GPX file: its tracks and the file-level time. -/
structure GpxFile where
  tracks : List GpxTrack
  time : Option String
deriving DecidableEq

/-- A filesystem path, modelling exactly the `os.path` operations the code
uses: `os.path.join(dir, base)`, `os.path.dirname`, `os.path.basename`. -/
structure Path where
  dir : String
  base : String
deriving DecidableEq

/-- One entry of `data["tracks"]` (src/draw.py:120-128). -/
structure Track where
  lats : List ℚ
  lons : List ℚ
  elevs : List ℚ
  type : Int
  name : String
  date : Option String
  filename : String
deriving DecidableEq

/-- The persisted corpus cache dict: the `"tracks"` list, and the `"files"`
key, which is absent on the fresh `dict(tracks=[])` and a set of basenames
once `load_gpx` has run. -/
structure Corpus where
  tracks : List Track
  files : Option (Finset String)
deriving DecidableEq

/-- Failures of the loader: opening a path absent from the filesystem raises
`FileNotFoundError`; `gpx.tracks[0]` or `track.segments[0]` on an empty list
raises `IndexError`, as does `files[0]` on an empty glob result
(src/draw.py:195); reading the missing `"files"` key of a cache dict raises
`KeyError` (src/draw.py:192). -/
inductive LoadErr
  | fileNotFound (p : Path)
  | indexError
  | keyError
deriving DecidableEq

/-- The body of the `load_gpx` loop for one file (src/draw.py:114-128):
parse the file, take the first segment of the first track, and build the
record from that segment's points only. -/
def mkTrack (path : Path) (g : GpxFile) : Except LoadErr Track :=
  match g.tracks with
  | [] => .error .indexError
  | t :: _ =>
    match t.segments with
    | [] => .error .indexError
    | s :: _ =>
      .ok
        { lats := s.points.map (fun p => p.latitude)
          lons := s.points.map (fun p => p.longitude)
          elevs := s.points.map (fun p => p.elevation)
          type := t.type
          name := t.name
          date := g.time
          filename := path.base }

/-- The `load_gpx` loop over the given paths (src/draw.py:111-128),
appending each record to the accumulated `data["tracks"]`.  The filesystem
is passed explicitly; a missing path is a hard failure. -/
def loadTracks (fsys : Path → Option GpxFile) :
    List Path → List Track → Except LoadErr (List Track)
  | [], acc => .ok acc
  | p :: ps, acc =>
    match fsys p with
    | none => .error (.fileNotFound p)
    | some g =>
      match mkTrack p g with
      | .error e => .error e
      | .ok t => loadTracks fsys ps (acc ++ [t])

/-- `load_gpx` (src/draw.py:108-135): start from the supplied cache dict (or
a fresh `dict(tracks=[])`), append one record per file, then union the
basenames of the loaded files into `data["files"]` (creating the key if
absent). -/
def load_gpx (fsys : Path → Option GpxFile) (paths : List Path)
    (data : Option Corpus) : Except LoadErr Corpus :=
  let d0 := data.getD ⟨[], none⟩
  match loadTracks fsys paths d0.tracks with
  | .error e => .error e
  | .ok ts =>
    .ok { tracks := ts,
          files := some (d0.files.getD ∅ ∪ (paths.map (fun p => p.base)).toFinset) }

/-- Python's `^` on sets: the symmetric difference. -/
def setXor (a b : Finset String) : Finset String := (a \ b) ∪ (b \ a)

/-- A total order on file names (pointwise on the underlying character
lists).  Python iterates a set in an unspecified order; the embedding picks
this fixed order, which no claim depends on. -/
def fileLe (a b : String) : Prop := a.data ≤ b.data

instance : DecidableRel fileLe :=
  fun a b => inferInstanceAs (Decidable (a.data ≤ b.data))

instance : IsTotal String fileLe := ⟨fun a b => le_total a.data b.data⟩

instance : IsTrans String fileLe := ⟨fun _ _ _ => le_trans⟩

instance : IsAntisymm String fileLe :=
  ⟨fun a b h h' => by
    cases a; cases b
    exact congrArg String.mk (le_antisymm h h')⟩

/-- Insertion sort of file names by `fileLe`. -/
def sortFiles (l : List String) : List String := l.insertionSort fileLe

/-- The elements of a set of file names, listed in `fileLe` order. -/
def finsort (s : Finset String) : List String :=
  Quotient.liftOn s.val sortFiles fun a b h =>
    List.eq_of_perm_of_sorted
      (((List.perm_insertionSort fileLe a).trans h).trans
        (List.perm_insertionSort fileLe b).symm)
      (List.sorted_insertionSort fileLe a)
      (List.sorted_insertionSort fileLe b)

/-- The cache-update block at module scope (src/draw.py:185-203).  `cached`
is the unpickled cache when `cache.pkl` exists, `diskFiles` the glob result
(the paths of the `.gpx` files currently in the directory).  With a cache
present, `new_files = data["files"] ^ {basenames on disk}` (src/draw.py:192)
and, when non-empty, exactly the paths `join(dirname(files[0]), f)` for `f`
in `new_files` are loaded (a Python set is iterated in an unspecified order;
we iterate it in sorted order, which no claim depends on).  Returns the
resulting corpus together with the list of paths that were parsed. -/
def updateData (fsys : Path → Option GpxFile) (cached : Option Corpus)
    (diskFiles : List Path) : Except LoadErr (Corpus × List Path) :=
  match cached with
  | some data =>
    match data.files with
    | none => .error .keyError
    | some known =>
      let diskSet : Finset String := (diskFiles.map (fun p => p.base)).toFinset
      let newFiles : Finset String := setXor known diskSet
      if newFiles = ∅ then .ok (data, [])
      else
        match diskFiles with
        | [] => .error .indexError
        | f0 :: _ =>
          let newPaths := (finsort newFiles).map (fun b => Path.mk f0.dir b)
          (load_gpx fsys newPaths (some data)).map (fun c => (c, newPaths))
  | none => (load_gpx fsys diskFiles none).map (fun c => (c, diskFiles))

/-- `np.average` of a sequence: sum divided by length. -/
def npAverage (l : List ℚ) : ℚ := l.sum / l.length

/-- The `average` reduction (src/draw.py:212): per record, the mean of all
latitudes and, independently, of all longitudes. -/
def reduceAverage (tracks : List Track) : List (ℚ × ℚ) :=
  tracks.map (fun d => (npAverage d.lats, npAverage d.lons))

/-- The `start_stop_average` reduction for one record (src/draw.py:214):
`np.average(d["lats"][[0, -1]])` selects the first and last entry (the same
entry twice for a one-point track) and averages the two, independently for
latitudes and longitudes.  (`headI`/`getLastI` default to `0` on `[]`; the
Python fancy indexing would raise there, and every theorem below assumes a
non-empty track.) -/
def startStopPoint (d : Track) : ℚ × ℚ :=
  (npAverage [d.lats.headI, d.lats.getLastI], npAverage [d.lons.headI, d.lons.getLastI])

/-- The `start_stop_average` reduction over the working set
(src/draw.py:213-214). -/
def reduceStartStopAverage (tracks : List Track) : List (ℚ × ℚ) :=
  tracks.map startStopPoint

/-- The `coords`/`here` radius filter (src/draw.py:239-240): keep the
records whose reduced coordinate `c` satisfies
`np.sqrt((c[0] - lat)^2 + (c[1] - lon)^2) <= radius`.  Squares being
non-negative and the square root monotone, that float test holds exactly
when `0 ≤ radius` and the squared distance is at most `radius ^ 2`, which is
the decidable form used here. -/
def radiusFilter (data : List Track) (coords : List (ℚ × ℚ))
    (lat lon radius : ℚ) : List Track :=
  ((data.zip coords).filter fun dc =>
    decide (0 ≤ radius) &&
      decide ((dc.2.1 - lat) ^ 2 + (dc.2.2 - lon) ^ 2 ≤ radius ^ 2)).map
    (fun dc => dc.1)

/-! ### DBSCAN (sklearn.cluster.DBSCAN, as invoked at src/draw.py:218-220)

`DBSCAN(eps, min_samples).fit(coords)` computes, for each point, its
neighborhood (the points at Euclidean distance at most `eps`, itself
included), marks as core the points whose neighborhood has at least
`min_samples` members, and labels the points by scanning them in index
order: each still-unlabelled core point seeds the next cluster label and a
stack-based expansion labels everything density-reachable from it;
non-core points never expand, and points reached by no cluster keep the
noise label `-1`.  The expansion is structurally recursive on an explicit
fuel, which `n^2 + n + 2` iterations always suffice for (each point is
pushed at most once per neighbor pair). -/

/-- Squared Euclidean distance between two coordinate pairs. -/
def dist2 (p q : ℚ × ℚ) : ℚ := (p.1 - q.1) ^ 2 + (p.2 - q.2) ^ 2

/-- Indices of the points within `eps` of `p` (distance at most `eps`,
expressed on squares as in `radiusFilter`). -/
def neighborsOf (pts : List (ℚ × ℚ)) (eps : ℚ) (p : ℚ × ℚ) : List Nat :=
  (List.range pts.length).filter fun j =>
    decide (0 ≤ eps) && decide (dist2 p (pts.getD j (0, 0)) ≤ eps ^ 2)

/-- The stack-based cluster expansion of sklearn's `dbscan_inner`: pop a
point; if still unlabelled, give it `lab` and, when it is a core point,
push its still-unlabelled neighbors. -/
def expand (nbhds : List (List Nat)) (core : List Bool) :
    Nat → List Int → List Nat → Int → List Int
  | 0, labels, _, _ => labels
  | _ + 1, labels, [], _ => labels
  | fuel + 1, labels, i :: stack, lab =>
    if labels.getD i (-1) == -1 then
      let labels1 := labels.set i lab
      if core.getD i false then
        let pushes := (nbhds.getD i []).filter (fun v => labels1.getD v (-1) == -1)
        expand nbhds core fuel labels1 (pushes ++ stack) lab
      else expand nbhds core fuel labels1 stack lab
    else expand nbhds core fuel labels stack lab

/-- The outer scan of `dbscan_inner`: points in index order; a point that is
already labelled or not core is skipped, otherwise it seeds the next
label. -/
def dbscanLoop (nbhds : List (List Nat)) (core : List Bool) (n : Nat) : List Int :=
  ((List.range n).foldl
    (fun (st : List Int × Int) i =>
      if st.1.getD i (-1) != -1 || !(core.getD i false) then st
      else (expand nbhds core (n * n + n + 2) st.1 [i] st.2, st.2 + 1))
    (List.replicate n (-1), 0)).1

/-- `DBSCAN(eps=eps, min_samples=minSamples).fit(pts).labels_`. -/
def dbscan (pts : List (ℚ × ℚ)) (eps : ℚ) (minSamples : Nat) : List Int :=
  let nbhds := pts.map (neighborsOf pts eps)
  let core := nbhds.map (fun nb => decide (minSamples ≤ nb.length))
  dbscanLoop nbhds core pts.length

/-- The `cluster` branch (src/draw.py:218-220): the source constructs
`DBSCAN(eps=args.radius, min_samples=10)` with the literal `10` — the
`--min-cluster-size` argument (src/draw.py:165-166) is accepted but never
passed to the clusterer, so `minClusterSize` is unused here exactly as in
the source. -/
def clusterBranch (coords : List (ℚ × ℚ)) (radius : ℚ)
    (minClusterSize : Nat) : List Int :=
  dbscan coords radius 10

/-! ## Helper lemmas for the identity encoding -/

lemma unhex_hexDigit (i : Nat) (h : i < 16) : unhex (hexDigit i) = i := by
  interval_cases i <;> rfl

lemma hexDigit_inj {a b : Nat} (ha : a < 16) (hb : b < 16)
    (h : hexDigit a = hexDigit b) : a = b := by
  have h' := congrArg unhex h
  rwa [unhex_hexDigit a ha, unhex_hexDigit b hb] at h'

lemma encode32_length (w : Nat) : (b16encodeLower (packBytes w)).length = 8 := rfl

lemma encode32_inj {w w' : Nat} (hw : w < 2 ^ 32) (hw' : w' < 2 ^ 32)
    (h : b16encodeLower (packBytes w) = b16encodeLower (packBytes w')) : w = w' := by
  simp only [b16encodeLower, packBytes, byteHex, List.map_cons, List.map_nil,
    List.flatten, List.cons_append, List.nil_append, List.cons.injEq,
    List.append_nil, and_true] at h
  obtain ⟨h1, h2, h3, h4, h5, h6, h7, h8⟩ := h
  have e1 := hexDigit_inj (by omega) (by omega) h1
  have e2 := hexDigit_inj (by omega) (by omega) h2
  have e3 := hexDigit_inj (by omega) (by omega) h3
  have e4 := hexDigit_inj (by omega) (by omega) h4
  have e5 := hexDigit_inj (by omega) (by omega) h5
  have e6 := hexDigit_inj (by omega) (by omega) h6
  have e7 := hexDigit_inj (by omega) (by omega) h7
  have e8 := hexDigit_inj (by omega) (by omega) h8
  omega

/-- C3: the bounding-box identity function is deterministic — two calls on
the same four single-precision bit patterns yield the same string — and
injective in each argument: any change to any one of the four 32-bit
patterns (in particular, the smallest representable increment of the
corresponding single-precision float, which changes its bit pattern)
changes the identity string. -/
theorem C3_osm_id_identity (a b c d a' b' c' d' : Nat)
    (ha : a < 2 ^ 32) (hb : b < 2 ^ 32) (hc : c < 2 ^ 32) (hd : d < 2 ^ 32)
    (ha' : a' < 2 ^ 32) (hb' : b' < 2 ^ 32) (hc' : c' < 2 ^ 32) (hd' : d' < 2 ^ 32) :
    osm_id a b c d = osm_id a b c d ∧
      (osm_id a b c d = osm_id a' b' c' d' → a = a' ∧ b = b' ∧ c = c' ∧ d = d') := by
  refine ⟨rfl, fun h => ?_⟩
  have hdata := congrArg String.data h
  simp only [osm_id] at hdata
  have l3 : ((b16encodeLower (packBytes a) ++ b16encodeLower (packBytes b)) ++
      b16encodeLower (packBytes c)).length =
      ((b16encodeLower (packBytes a') ++ b16encodeLower (packBytes b')) ++
        b16encodeLower (packBytes c')).length := by
    simp [List.length_append, encode32_length]
  obtain ⟨h012, h3⟩ := List.append_inj hdata l3
  have l2 : (b16encodeLower (packBytes a) ++ b16encodeLower (packBytes b)).length =
      (b16encodeLower (packBytes a') ++ b16encodeLower (packBytes b')).length := by
    simp [List.length_append, encode32_length]
  obtain ⟨h01, h2⟩ := List.append_inj h012 l2
  obtain ⟨h0, h1⟩ := List.append_inj h01 (by simp [encode32_length])
  exact ⟨encode32_inj ha ha' h0, encode32_inj hb hb' h1,
    encode32_inj hc hc' h2, encode32_inj hd hd' h3⟩

/-- Witness for C3 at the box (1.0, 2.0, -3.14159274…, 0.0): bit patterns
0x3F800000, 0x40000000, 0xC0490FDB, 0x00000000; the second copy bumps the
first pattern by one unit in the last place. -/
theorem C3_witness :
    osm_id 1065353216 1073741824 3226013659 0 = osm_id 1065353216 1073741824 3226013659 0 ∧
      (osm_id 1065353216 1073741824 3226013659 0 = osm_id 1065353217 1073741824 3226013659 0 →
        1065353216 = 1065353217 ∧ 1073741824 = 1073741824 ∧
          3226013659 = 3226013659 ∧ 0 = 0) :=
  C3_osm_id_identity 1065353216 1073741824 3226013659 0 1065353217 1073741824 3226013659 0
    (by decide) (by decide) (by decide) (by decide)
    (by decide) (by decide) (by decide) (by decide)

/-- C2 counterexample: a 500 response is not a 2xx success, yet
`download_osm` still writes its payload to the snapshot file and signals no
failure — the code inspects no status and defines no `DownloadError`
(src/osm.py:22-27). -/
theorem C2_counterexample :
    ¬ (200 ≤ 500 ∧ 500 < 300) ∧
      download_osm (fun _ => none) "map.osm" ⟨500, [60, 104, 116, 109, 108, 62]⟩
          "map.osm" = some [60, 104, 116, 109, 108, 62] :=
  ⟨by decide, by decide⟩

/-- C2 (amended): for every response, successful or not, `download_osm`
writes the response payload verbatim to the snapshot file; HTTP failures
are not detected and nothing is raised. -/
theorem C2_download_writes_verbatim (fs : String → Option (List Nat))
    (fileName : String) (r : HttpResponse) :
    download_osm fs fileName r fileName = some r.content := by
  simp [download_osm]

/-! ## Helper lemmas for way extraction -/

/-- One child is a road-classification tag. -/
def isHighwayTag : WayElem → Bool
  | .tag k _ => k == "highway"
  | _ => false

lemma wayCoords_ok_spec (m : List (Int × ℚ × ℚ)) :
    ∀ (es : List WayElem) (keep : Bool) (cs : List (ℚ × ℚ)) (out : Bool × List (ℚ × ℚ)),
      wayCoords m es keep cs = .ok out →
      out.1 = (keep || es.any isHighwayTag) ∧ out.2 = cs ++ resolveElems m es := by
  intro es
  induction es with
  | nil =>
    intro keep cs out h
    simp only [wayCoords] at h
    cases h
    simp [resolveElems]
  | cons e es ih =>
    intro keep cs out h
    cases e with
    | nd ref =>
      cases ref with
      | none =>
        simp only [wayCoords] at h
        have := ih keep cs out h
        simpa [resolveElems, isHighwayTag] using this
      | some r =>
        simp only [wayCoords] at h
        cases hl : lookupNode m r with
        | none => rw [hl] at h; cases h
        | some c =>
          rw [hl] at h
          have := ih keep (cs ++ [c]) out h
          simpa [resolveElems, isHighwayTag, hl, List.append_assoc] using this
    | tag k v =>
      simp only [wayCoords] at h
      have := ih (keep || (k == "highway")) cs out h
      simpa [resolveElems, isHighwayTag, Bool.or_assoc] using this
    | other =>
      simp only [wayCoords] at h
      have := ih keep cs out h
      simpa [resolveElems, isHighwayTag] using this

lemma parseWays_ok_spec (m : List (Int × ℚ × ℚ)) :
    ∀ (ws : List OsmWay) (segs out : List (List (ℚ × ℚ))),
      parseWays m ws segs = .ok out →
      out = segs ++ (ws.filter hasHighwayTag).map (fun w => resolveElems m w.elems) := by
  intro ws
  induction ws with
  | nil =>
    intro segs out h
    simp only [parseWays] at h
    cases h
    simp
  | cons w ws ih =>
    intro segs out h
    simp only [parseWays] at h
    cases hw : wayCoords m w.elems false [] with
    | error e => rw [hw] at h; cases h
    | ok kc =>
      rw [hw] at h
      obtain ⟨hk, hc⟩ := wayCoords_ok_spec m w.elems false [] kc hw
      simp only [Bool.false_or, List.nil_append] at hk hc
      have hout := ih _ out h
      rw [hout]
      by_cases hkeep : hasHighwayTag w
      · rw [List.filter_cons_of_pos (by simpa [hasHighwayTag] using hkeep)]
        have : kc.1 = true := by rw [hk]; exact hkeep
        simp [this, hc, List.append_assoc]
      · rw [List.filter_cons_of_neg (by simpa [hasHighwayTag] using hkeep)]
        have : kc.1 = false := by rw [hk]; simpa [hasHighwayTag] using hkeep
        simp [this]

/-- C5: when extraction succeeds, the output segment set is exactly the
full ordered coordinate list of every way carrying a tag with key
`"highway"`, in document order; a way without that tag key contributes
nothing. -/
theorem C5_way_filtering (doc : OsmDoc) (segs : List (List (ℚ × ℚ)))
    (h : parse_osm doc = .ok segs) :
    segs = (doc.ways.filter hasHighwayTag).map
      (fun w => resolveElems (buildNodes doc.nodes) w.elems) := by
  simpa using parseWays_ok_spec (buildNodes doc.nodes) doc.ways [] segs h

/-- Witness for C5: a document with one highway way and one untagged way;
only the former contributes a segment, with its full coordinate list. -/
theorem C5_witness :
    [[((10 : ℚ), (20 : ℚ)), (11, 21)]] =
      ((OsmDoc.mk [⟨1, 10, 20⟩, ⟨2, 11, 21⟩]
          [⟨[.nd (some 1), .tag "highway" "tertiary", .nd (some 2)]⟩,
            ⟨[.nd (some 1), .tag "name" "x"]⟩]).ways.filter hasHighwayTag).map
        (fun w => resolveElems
          (buildNodes (OsmDoc.mk [⟨1, 10, 20⟩, ⟨2, 11, 21⟩]
            [⟨[.nd (some 1), .tag "highway" "tertiary", .nd (some 2)]⟩,
              ⟨[.nd (some 1), .tag "name" "x"]⟩]).nodes) w.elems) :=
  C5_way_filtering _ _ (by decide)

lemma wayCoords_ok_resolves (m : List (Int × ℚ × ℚ)) :
    ∀ (es : List WayElem) (keep : Bool) (cs : List (ℚ × ℚ)) (out : Bool × List (ℚ × ℚ)),
      wayCoords m es keep cs = .ok out →
      ∀ r : Int, WayElem.nd (some r) ∈ es → lookupNode m r ≠ none := by
  intro es
  induction es with
  | nil => intro keep cs out _ r hr; cases hr
  | cons e es ih =>
    intro keep cs out h r hr
    cases e with
    | nd ref =>
      cases ref with
      | none =>
        simp only [wayCoords] at h
        rcases List.mem_cons.mp hr with heq | hmem
        · cases heq
        · exact ih _ _ _ h r hmem
      | some r' =>
        simp only [wayCoords] at h
        cases hl : lookupNode m r' with
        | none => rw [hl] at h; cases h
        | some c =>
          rw [hl] at h
          rcases List.mem_cons.mp hr with heq | hmem
          · cases heq
            simp [hl]
          · exact ih _ _ _ h r hmem
    | tag k v =>
      simp only [wayCoords] at h
      rcases List.mem_cons.mp hr with heq | hmem
      · cases heq
      · exact ih _ _ _ h r hmem
    | other =>
      simp only [wayCoords] at h
      rcases List.mem_cons.mp hr with heq | hmem
      · cases heq
      · exact ih _ _ _ h r hmem

lemma parseWays_ok_resolves (m : List (Int × ℚ × ℚ)) :
    ∀ (ws : List OsmWay) (segs out : List (List (ℚ × ℚ))),
      parseWays m ws segs = .ok out →
      ∀ w ∈ ws, ∀ r : Int, WayElem.nd (some r) ∈ w.elems → lookupNode m r ≠ none := by
  intro ws
  induction ws with
  | nil => intro segs out _ w hw; cases hw
  | cons w' ws ih =>
    intro segs out h w hw r hr
    simp only [parseWays] at h
    cases hwc : wayCoords m w'.elems false [] with
    | error e => rw [hwc] at h; cases h
    | ok kc =>
      rw [hwc] at h
      rcases List.mem_cons.mp hw with heq | hmem
      · subst heq
        exact wayCoords_ok_resolves m w.elems false [] kc hwc r hr
      · exact ih _ out h w hmem r hr

/-- C9: a node reference inside any way that does not resolve in the node
lookup makes extraction fail hard with a dangling-reference error (the
`nodes[int(ref)]` lookup at src/osm.py:64 raises); it is never skipped
silently. -/
theorem C9_dangling_reference (doc : OsmDoc) (w : OsmWay) (r : Int)
    (hw : w ∈ doc.ways) (hr : WayElem.nd (some r) ∈ w.elems)
    (hnone : lookupNode (buildNodes doc.nodes) r = none) :
    ∃ r', parse_osm doc = .error (.danglingReference r') := by
  cases h : parse_osm doc with
  | error e =>
    cases e with
    | danglingReference r' => exact ⟨r', rfl⟩
  | ok segs =>
    exact absurd hnone (parseWays_ok_resolves (buildNodes doc.nodes) doc.ways [] segs h w hw r hr)

/-- Witness for C9: a way referencing the unknown node 7 makes extraction
fail. -/
theorem C9_witness :
    ∃ r', parse_osm (OsmDoc.mk [⟨1, 10, 20⟩] [⟨[.nd (some 7)]⟩]) =
      .error (.danglingReference r') :=
  C9_dangling_reference (OsmDoc.mk [⟨1, 10, 20⟩] [⟨[.nd (some 7)]⟩])
    ⟨[.nd (some 7)]⟩ 7 (by decide) (by decide) (by decide)

/-! ## Radius filter, reduction, loader truncation -/

/-- C6: the radius filter retains exactly the records whose reduced
coordinate lies within Euclidean distance `radius` (in raw degree units) of
the reference, boundary included: the kept condition is
`√((c₀ - lat)² + (c₁ - lon)²) ≤ radius`, a non-strict inequality. -/
theorem C6_radius_filter (data : List Track) (coords : List (ℚ × ℚ))
    (lat lon radius : ℚ) (t : Track) :
    t ∈ radiusFilter data coords lat lon radius ↔
      ∃ c : ℚ × ℚ, (t, c) ∈ data.zip coords ∧
        Real.sqrt (((c.1 : ℝ) - (lat : ℝ)) ^ 2 + ((c.2 : ℝ) - (lon : ℝ)) ^ 2) ≤
          (radius : ℝ) := by
  have key : ∀ c : ℚ × ℚ,
      (Real.sqrt (((c.1 : ℝ) - (lat : ℝ)) ^ 2 + ((c.2 : ℝ) - (lon : ℝ)) ^ 2) ≤
          (radius : ℝ)) ↔
        (0 ≤ radius ∧ (c.1 - lat) ^ 2 + (c.2 - lon) ^ 2 ≤ radius ^ 2) := by
    intro c
    rw [Real.sqrt_le_iff]
    constructor
    · rintro ⟨h1, h2⟩
      refine ⟨by exact_mod_cast h1, ?_⟩
      have h2' : (((c.1 - lat) ^ 2 + (c.2 - lon) ^ 2 : ℚ) : ℝ) ≤ ((radius ^ 2 : ℚ) : ℝ) := by
        push_cast
        convert h2 using 2
      exact_mod_cast h2'
    · rintro ⟨h1, h2⟩
      refine ⟨by exact_mod_cast h1, ?_⟩
      have h2' : (((c.1 - lat) ^ 2 + (c.2 - lon) ^ 2 : ℚ) : ℝ) ≤ ((radius ^ 2 : ℚ) : ℝ) := by
        exact_mod_cast h2
      push_cast at h2'
      convert h2' using 2
  simp only [radiusFilter, List.mem_map, List.mem_filter, Bool.and_eq_true,
    decide_eq_true_eq]
  constructor
  · rintro ⟨⟨t', c⟩, ⟨hmem, h0, hd⟩, rfl⟩
    exact ⟨c, hmem, (key c).mpr ⟨h0, hd⟩⟩
  · rintro ⟨c, hmem, h⟩
    exact ⟨(t, c), ⟨hmem, ((key c).mp h).1, ((key c).mp h).2⟩, rfl⟩

/-- Witness for C6: a record whose coordinate (3, 4) lies at distance
exactly 5 from the reference (0, 0) is retained with radius 5. -/
theorem C6_witness :
    ∃ c : ℚ × ℚ,
      ((⟨[0], [0], [0], 0, "t", none, "x"⟩ : Track), c) ∈
        ([(⟨[0], [0], [0], 0, "t", none, "x"⟩ : Track)].zip [((3 : ℚ), (4 : ℚ))]) ∧
        Real.sqrt (((c.1 : ℝ) - ((0 : ℚ) : ℝ)) ^ 2 + ((c.2 : ℝ) - ((0 : ℚ) : ℝ)) ^ 2) ≤
          (((5 : ℚ)) : ℝ) :=
  (C6_radius_filter [⟨[0], [0], [0], 0, "t", none, "x"⟩] [(3, 4)] 0 0 5
    ⟨[0], [0], [0], 0, "t", none, "x"⟩).mp (by norm_num [radiusFilter])

/-- C7: the `start_stop_average` strategy reduces a non-empty track to the
mean of its first and last latitude and, independently, of its first and
last longitude; on a one-point track it returns exactly that point. -/
theorem C7_start_stop_average (d : Track) (h : d.lats ≠ []) (h' : d.lons ≠ []) :
    startStopPoint d =
      ((d.lats.headI + d.lats.getLastI) / 2, (d.lons.headI + d.lons.getLastI) / 2) ∧
      ∀ a b : ℚ, d.lats = [a] → d.lons = [b] → startStopPoint d = (a, b) := by
  constructor
  · have havg : ∀ x y : ℚ, npAverage [x, y] = (x + y) / 2 := by
      intro x y
      simp [npAverage]
    simp [startStopPoint, havg]
  · rintro a b ha hb
    have havg : ∀ x : ℚ, npAverage [x, x] = x := by
      intro x
      simp [npAverage]
    simp only [startStopPoint, ha, hb]
    show (npAverage [a, a], npAverage [b, b]) = (a, b)
    rw [havg, havg]

/-- Witness for C7 on the track with latitudes [1, 5, 7] and longitudes
[2, 4, 10]: the middle point is ignored. -/
theorem C7_witness :
    startStopPoint ⟨[1, 5, 7], [2, 4, 10], [0, 0, 0], 0, "", none, "f"⟩ =
      (((1 : ℚ) + 7) / 2, ((2 : ℚ) + 10) / 2) :=
  (C7_start_stop_average ⟨[1, 5, 7], [2, 4, 10], [0, 0, 0], 0, "", none, "f"⟩
    (by decide) (by decide)).1

/-- C10: the loader builds a record exclusively from the first segment of
the first track of the file — the record equals the one obtained from the
file truncated to that single segment, so points of any further track or
segment are silently dropped. -/
theorem C10_first_track_first_segment (path : Path) (g : GpxFile)
    (t : GpxTrack) (ts : List GpxTrack) (s : GpxSegment) (ss : List GpxSegment)
    (hg : g.tracks = t :: ts) (ht : t.segments = s :: ss) :
    mkTrack path g =
      .ok { lats := s.points.map (fun p => p.latitude)
            lons := s.points.map (fun p => p.longitude)
            elevs := s.points.map (fun p => p.elevation)
            type := t.type
            name := t.name
            date := g.time
            filename := path.base } ∧
      mkTrack path g = mkTrack path ⟨[⟨[s], t.type, t.name⟩], g.time⟩ := by
  obtain ⟨tracks, time⟩ := g
  simp only at hg
  subst hg
  obtain ⟨segs, ty, nm⟩ := t
  simp only at ht
  subst ht
  exact ⟨rfl, rfl⟩

/-- Witness for C10: a file with two tracks, the first having two segments;
the record contains only the point (1, 2, 3) of the first segment of the
first track and coincides with the record of the truncated file. -/
theorem C10_witness :
    mkTrack ⟨"strava", "f.gpx"⟩
        (GpxFile.mk
          [⟨[⟨[⟨1, 2, 3⟩]⟩, ⟨[⟨4, 5, 6⟩]⟩], 1, "n"⟩, ⟨[⟨[⟨7, 8, 9⟩]⟩], 2, "m"⟩]
          (some "2021")) =
      .ok ⟨[1], [2], [3], 1, "n", some "2021", "f.gpx"⟩ ∧
      mkTrack ⟨"strava", "f.gpx"⟩
          (GpxFile.mk
            [⟨[⟨[⟨1, 2, 3⟩]⟩, ⟨[⟨4, 5, 6⟩]⟩], 1, "n"⟩, ⟨[⟨[⟨7, 8, 9⟩]⟩], 2, "m"⟩]
            (some "2021")) =
        mkTrack ⟨"strava", "f.gpx"⟩
          (GpxFile.mk [⟨[⟨[⟨1, 2, 3⟩]⟩], 1, "n"⟩] (some "2021")) :=
  C10_first_track_first_segment ⟨"strava", "f.gpx"⟩ _
    ⟨[⟨[⟨1, 2, 3⟩]⟩, ⟨[⟨4, 5, 6⟩]⟩], 1, "n"⟩ [⟨[⟨[⟨7, 8, 9⟩]⟩], 2, "m"⟩]
    ⟨[⟨1, 2, 3⟩]⟩ [⟨[⟨4, 5, 6⟩]⟩] rfl rfl

/-! ## Cache update lemmas -/

lemma mem_finsort {s : Finset String} {x : String} : x ∈ finsort s ↔ x ∈ s := by
  rcases s with ⟨m, nd⟩
  induction m using Quotient.inductionOn with
  | h l =>
    show x ∈ List.insertionSort fileLe l ↔ x ∈ (⟨⟦l⟧, nd⟩ : Finset String)
    rw [List.Perm.mem_iff (List.perm_insertionSort fileLe l)]
    simp [Finset.mem_mk]

lemma setXor_self (s : Finset String) : setXor s s = ∅ := by
  simp [setXor]

lemma setXor_pair {A B C : String} (hAB : A ≠ B) (hAC : A ≠ C) (hBC : B ≠ C) :
    setXor {A, B} {B, C} = {A, C} := by
  ext x
  simp only [setXor, Finset.mem_union, Finset.mem_sdiff, Finset.mem_insert,
    Finset.mem_singleton]
  constructor
  · rintro (⟨rfl | rfl, hx⟩ | ⟨rfl | rfl, hx⟩) <;> tauto
  · rintro (rfl | rfl)
    · exact Or.inl ⟨Or.inl rfl, by tauto⟩
    · exact Or.inr ⟨Or.inr rfl, by tauto⟩

lemma loadTracks_error_missing (fsys : Path → Option GpxFile) :
    ∀ (ps : List Path) (acc : List Track) (p : Path), p ∈ ps → fsys p = none →
      (∀ q ∈ ps, q ≠ p → ∃ g t, fsys q = some g ∧ mkTrack q g = .ok t) →
      loadTracks fsys ps acc = .error (.fileNotFound p) := by
  intro ps
  induction ps with
  | nil => intro acc p hp; cases hp
  | cons q ps ih =>
    intro acc p hp hnone hoth
    by_cases hqp : q = p
    · subst hqp
      simp [loadTracks, hnone]
    · obtain ⟨g, t, hg, ht⟩ := hoth q (List.mem_cons_self q ps) hqp
      have hp' : p ∈ ps := by
        rcases List.mem_cons.mp hp with heq | hmem
        · exact absurd heq.symm hqp
        · exact hmem
      simp only [loadTracks, hg, ht]
      exact ih (acc ++ [t]) p hp' hnone
        (fun q' hq' => hoth q' (List.mem_cons_of_mem _ hq'))

/-- C8: when the persisted cache's known-file set equals the set of
basenames currently on disk, the symmetric difference is empty, the update
parses no file and the cache is returned unchanged (and, the source not
entering the `len(new_files) > 0` branch, nothing is rewritten). -/
theorem C8_idempotent_update (fsys : Path → Option GpxFile) (cached : Corpus)
    (known : Finset String) (diskFiles : List Path)
    (hknown : cached.files = some known)
    (hdisk : (diskFiles.map (fun p => p.base)).toFinset = known) :
    updateData fsys (some cached) diskFiles = .ok (cached, []) := by
  simp [updateData, hknown, hdisk, setXor_self]

/-- Witness for C8: concrete cache whose known files are exactly the two
files on disk — the update returns it unchanged, parsing nothing. -/
theorem C8_witness :
    updateData
        (fun p => if p = ⟨"strava", "b.gpx"⟩ ∨ p = ⟨"strava", "c.gpx"⟩
          then some (GpxFile.mk [⟨[⟨[⟨1, 2, 3⟩]⟩], 5, "run"⟩] (some "2021")) else none)
        (some ⟨[⟨[1], [2], [3], 5, "run", some "2021", "b.gpx"⟩], some {"b.gpx", "c.gpx"}⟩)
        [⟨"strava", "b.gpx"⟩, ⟨"strava", "c.gpx"⟩] =
      .ok (⟨[⟨[1], [2], [3], 5, "run", some "2021", "b.gpx"⟩], some {"b.gpx", "c.gpx"}⟩, []) :=
  C8_idempotent_update _ _ {"b.gpx", "c.gpx"} _ rfl (by decide)

/-- C1 counterexample data: a persisted cache knowing {a.gpx, b.gpx} and a
directory that now contains exactly {b.gpx, c.gpx}. -/
def gpxSmall : GpxFile := ⟨[⟨[⟨[⟨1, 2, 3⟩]⟩], 5, "run"⟩], some "2021"⟩

/-- The on-disk `.gpx` paths of the C1 scenario. -/
def diskBC : List Path := [⟨"strava", "b.gpx"⟩, ⟨"strava", "c.gpx"⟩]

/-- The filesystem of the C1 scenario: only b.gpx and c.gpx exist. -/
def fsysBC : Path → Option GpxFile := fun p =>
  if p = ⟨"strava", "b.gpx"⟩ ∨ p = ⟨"strava", "c.gpx"⟩ then some gpxSmall else none

/-- The persisted cache of the C1 scenario, knowing a.gpx and b.gpx. -/
def cachedAB : Corpus :=
  ⟨[⟨[1], [2], [3], 5, "run", some "2021", "a.gpx"⟩,
    ⟨[1], [2], [3], 5, "run", some "2021", "b.gpx"⟩],
    some {"a.gpx", "b.gpx"}⟩

/-- C1 counterexample: with cache {a.gpx, b.gpx} and disk {b.gpx, c.gpx},
the incremental update does not parse exactly c.gpx and produce a cache
with file set {a.gpx, b.gpx, c.gpx} — it produces no cache at all, because
the symmetric difference also contains the vanished a.gpx, which it tries
to open. -/
theorem C1_counterexample :
    ¬ ∃ (c : Corpus) (ps : List Path),
        updateData fsysBC (some cachedAB) diskBC = .ok (c, ps) ∧
        ps.map (fun p => p.base) = ["c.gpx"] ∧
        c.files = some {"a.gpx", "b.gpx", "c.gpx"} := by
  have h : updateData fsysBC (some cachedAB) diskBC =
      .error (.fileNotFound ⟨"strava", "a.gpx"⟩) := by decide
  rintro ⟨c, ps, hok, -, -⟩
  rw [h] at hok
  cases hok

/-- C1 (amended): with known files {A, B} and a directory containing
exactly {B, C}, the update's diff is the symmetric difference {A, C} (not
{C}), so it attempts to parse the vanished A as well and fails with a
file-not-found error instead of producing a cache. -/
theorem C1_symmdiff_update (A B C dir : String) (fsys : Path → Option GpxFile)
    (cached : Corpus) (gC : GpxFile)
    (hAB : A ≠ B) (hAC : A ≠ C) (hBC : B ≠ C)
    (hfiles : cached.files = some {A, B})
    (hfA : fsys ⟨dir, A⟩ = none)
    (hfC : fsys ⟨dir, C⟩ = some gC)
    (hparseC : ∃ t, mkTrack ⟨dir, C⟩ gC = .ok t) :
    setXor {A, B} ((([(⟨dir, B⟩ : Path), ⟨dir, C⟩]).map (fun p => p.base)).toFinset) =
        {A, C} ∧
      updateData fsys (some cached) [⟨dir, B⟩, ⟨dir, C⟩] =
        .error (.fileNotFound ⟨dir, A⟩) := by
  have hdisk : (([(⟨dir, B⟩ : Path), ⟨dir, C⟩]).map (fun p => p.base)).toFinset =
      ({B, C} : Finset String) := by
    simp
  have hxor : setXor {A, B} ((([(⟨dir, B⟩ : Path), ⟨dir, C⟩]).map
      (fun p => p.base)).toFinset) = {A, C} := by
    rw [hdisk]
    exact setXor_pair hAB hAC hBC
  refine ⟨hxor, ?_⟩
  have hne : ({A, C} : Finset String) ≠ ∅ := by
    simp [Finset.insert_ne_empty]
  have hload : loadTracks fsys ((finsort {A, C}).map (fun b => Path.mk dir b))
      cached.tracks = .error (.fileNotFound ⟨dir, A⟩) := by
    apply loadTracks_error_missing
    · simp only [List.mem_map]
      exact ⟨A, mem_finsort.mpr (Finset.mem_insert_self A {C}), rfl⟩
    · exact hfA
    · rintro q hq hne'
      simp only [List.mem_map] at hq
      obtain ⟨x, hx, rfl⟩ := hq
      rcases Finset.mem_insert.mp (mem_finsort.mp hx) with rfl | hxc
      · exact absurd rfl hne'
      · rw [Finset.mem_singleton] at hxc
        subst hxc
        obtain ⟨t, ht⟩ := hparseC
        exact ⟨gC, t, hfC, ht⟩
  simp only [updateData, hfiles, hxor, if_neg hne, load_gpx, Option.getD_some, hload,
    Except.map]

/-- Witness for C1: the concrete {a.gpx, b.gpx} / {b.gpx, c.gpx} scenario
diffs to {a.gpx, c.gpx} and fails on the vanished a.gpx. -/
theorem C1_witness :
    setXor {"a.gpx", "b.gpx"}
        (((([(⟨"strava", "b.gpx"⟩ : Path), ⟨"strava", "c.gpx"⟩]).map
          (fun p => p.base)).toFinset)) = {"a.gpx", "c.gpx"} ∧
      updateData fsysBC (some cachedAB) [⟨"strava", "b.gpx"⟩, ⟨"strava", "c.gpx"⟩] =
        .error (.fileNotFound ⟨"strava", "a.gpx"⟩) :=
  C1_symmdiff_update "a.gpx" "b.gpx" "c.gpx" "strava" fsysBC cachedAB gpxSmall
    (by decide) (by decide) (by decide) rfl (by decide) (by decide)
    ⟨⟨[1], [2], [3], 5, "run", some "2021", "c.gpx"⟩, by decide⟩

/-! ## The clustering scenario of C4 -/

/-- Three tracks whose `average` reductions are (0, 1/100), (0, 0) and
(10, 10): the first two land within 0.05 degrees of each other, the third
lies far away. -/
def scenarioTracks : List Track :=
  [⟨[0, 0], [0, 1/50], [5, 5], 1, "t1", none, "t1.gpx"⟩,
   ⟨[0], [0], [5], 1, "t2", none, "t2.gpx"⟩,
   ⟨[10], [10], [5], 1, "t3", none, "t3.gpx"⟩]

/-- C4: the `--min-cluster-size` argument is not applied.  On the spec's
end-to-end scenario (3 tracks reduced via `average`, radius 0.05, requested
minimum size 2, two reduced points within 0.05 degrees and the third far
away), the `cluster` branch — which constructs
`DBSCAN(eps=args.radius, min_samples=10)` with a hard-coded 10
(src/draw.py:219) — leaves all three points unclustered, whereas DBSCAN run
with the requested minimum size 2 produces the expected one cluster of size
2 plus one unclustered point. -/
theorem C4_min_cluster_size_ignored :
    reduceAverage scenarioTracks = [(0, 1/100), (0, 0), (10, 10)] ∧
      clusterBranch (reduceAverage scenarioTracks) (1/20) 2 = [-1, -1, -1] ∧
      dbscan (reduceAverage scenarioTracks) (1/20) 2 = [0, 0, -1] := by
  have h : reduceAverage scenarioTracks = [(0, 1/100), (0, 0), (10, 10)] := by
    norm_num [reduceAverage, npAverage, scenarioTracks]
  refine ⟨h, ?_, ?_⟩ <;> rw [h]
  · norm_num [clusterBranch, dbscan, dbscanLoop, expand, neighborsOf, dist2,
      List.range_succ]
    rfl
  · norm_num [dbscan, dbscanLoop, expand, neighborsOf, dist2, List.range_succ]
    rfl

end Heatmap
